import Mathlib

/-!
# Verification of the beta-firmware signing/harvest engine (`scraper.py`)

Shallow embedding of the scraper: the persistence store with its
uniqueness-swallowing inserts, the catalog harvest pipeline, the manifest
resolver, the TSS (signing) request builder and signing check, the
HTTP-semaphore trace model, and the refresh loop.  Network and library
behaviour (HEAD/GET responses, the remote zip, the plist parser, the TSS
service) is supplied by an explicit environment, so every run of the code is
a pure function of that environment.
-/

namespace Scraper

/-! ## String primitives

`pyIn needle hay` models Python's `needle in hay` (case-sensitive substring).
`likeContains pat col` models SQLite `col LIKE '%pat%'`, which is
case-insensitive for ASCII; wildcard characters inside the interpolated value
are not modelled (none of the identifiers involved contain `%` or `_`). -/

/-- Does `needle` occur as a leading segment of `hay`? -/
def matchesAt : List Char → List Char → Bool
  | [], _ => true
  | _ :: _, [] => false
  | c :: cs, d :: ds => c == d && matchesAt cs ds

/-- Does `needle` occur as a contiguous sublist of `hay`? -/
def containsSub (needle : List Char) : List Char → Bool
  | [] => matchesAt needle []
  | h :: t => matchesAt needle (h :: t) || containsSub needle t

/-- Python's `needle in hay` on strings. -/
def pyIn (needle hay : String) : Bool :=
  containsSub needle.toList hay.toList

/-- ASCII-lowercase a string (SQLite's `LIKE` folds ASCII case). -/
def lowerAscii (s : String) : String :=
  ⟨s.toList.map Char.toLower⟩

/-- SQLite `col LIKE '%pat%'`: case-insensitive substring containment. -/
def likeContains (pat col : String) : Bool :=
  pyIn (lowerAscii pat) (lowerAscii col)

/-- Value of one hexadecimal digit, as accepted by Python's `int(_, 16)`. -/
def hexDigitVal (c : Char) : Option Nat :=
  if '0' ≤ c ∧ c ≤ '9' then some (c.toNat - '0'.toNat)
  else if 'a' ≤ c ∧ c ≤ 'f' then some (c.toNat - 'a'.toNat + 10)
  else if 'A' ≤ c ∧ c ≤ 'F' then some (c.toNat - 'A'.toNat + 10)
  else none

/-- Accumulate hex digits; `none` on an empty digit string or a bad digit. -/
def parseHexDigits (acc : Nat) : List Char → Option Nat
  | [] => some acc
  | c :: cs =>
    match hexDigitVal c with
    | some v => parseHexDigits (acc * 16 + v) cs
    | none => none

/-- Python's `int(s, 16)` on the shapes that occur in build manifests:
an optional `0x`/`0X` prefix followed by a non-empty hex-digit string;
`none` models the `ValueError` raised on malformed input. -/
def parseHex (s : String) : Option Nat :=
  let cs := s.toList
  let cs := if cs.take 2 = ['0', 'x'] ∨ cs.take 2 = ['0', 'X'] then cs.drop 2 else cs
  if cs.isEmpty then none else parseHexDigits 0 cs

/-! ## URLs

`urlparse` splits a URL into components; only the path is ever rewritten, so
we keep the path as a list of segments and the rest of the URL abstract. -/

/-- A parsed URL: everything except the path is opaque. -/
structure URL where
  scheme : String
  netloc : String
  /-- Path segments (the parts between `/`). -/
  path : List String
deriving DecidableEq, Repr

/-- `get_manifest`'s sibling-URL derivation: replace the final path segment
with `BuildManifest.plist` (`Path(p).parents[0] / 'BuildManifest.plist'`). -/
def manifestURL (u : URL) : URL :=
  { u with path := u.path.dropLast ++ ["BuildManifest.plist"] }

/-! ## The persistence store

Three relations, as created by `main()`:
- `devices(identifier TEXT UNIQUE, boardconfig TEXT UNIQUE)`,
- `firmwares(...)` with a unique index on `(buildid, devices)`,
- `buildmanifest(...)` with `unique_buildid` unique and a unique index on
  `(boardconfig, buildid)`.

Rows are kept in insertion order; an `INSERT` whose row violates a
uniqueness constraint raises `IntegrityError`, which every caller swallows,
so inserts are modelled as conflict-tested appends. -/

/-- A row of the `devices` table. -/
structure DeviceRow where
  identifier : String
  boardconfig : String
deriving DecidableEq, Repr

/-- A row of the `firmwares` table. -/
structure FirmwareRow where
  version : String
  buildid : String
  url : URL
  size : Nat
  devices : String
deriving DecidableEq, Repr

/-- A row of the `buildmanifest` table. -/
structure IdentityRow where
  boardconfig : String
  buildid : String
  chip_id : Nat
  board_id : Nat
  unique_buildid : List Nat
deriving DecidableEq, Repr

/-- The whole database. -/
structure Store where
  devices : List DeviceRow
  firmwares : List FirmwareRow
  buildmanifest : List IdentityRow
deriving DecidableEq, Repr

/-- Two device rows conflict when either unique column collides. -/
def deviceConflict (r r' : DeviceRow) : Bool :=
  r.identifier == r'.identifier || r.boardconfig == r'.boardconfig

/-- Two firmware rows conflict on the unique index `(buildid, devices)`. -/
def firmwareConflict (r r' : FirmwareRow) : Bool :=
  r.buildid == r'.buildid && r.devices == r'.devices

/-- Two identity rows conflict when the unique `unique_buildid` column or the
unique index `(boardconfig, buildid)` collides. -/
def identityConflict (r r' : IdentityRow) : Bool :=
  r.unique_buildid == r'.unique_buildid
    || (r.boardconfig == r'.boardconfig && r.buildid == r'.buildid)

/-- One attempted `INSERT`.  The sequence of attempted inserts issued by a
harvest pass does not depend on the database contents (an `IntegrityError`
only leads to `pass`/`continue`, which is the same continuation as a
successful insert), so a pass is modelled as such a sequence applied to a
store. -/
inductive DBOp where
  | device (r : DeviceRow)
  | firmware (r : FirmwareRow)
  | identity (r : IdentityRow)
deriving DecidableEq, Repr

/-- Does an attempted insert conflict with an existing row? -/
def opConflicts (s : Store) : DBOp → Bool
  | .device r => s.devices.any (deviceConflict r)
  | .firmware r => s.firmwares.any (firmwareConflict r)
  | .identity r => s.buildmanifest.any (identityConflict r)

/-- Apply one attempted insert: append the row unless a uniqueness constraint
is violated, in which case the `IntegrityError` is swallowed and the store is
unchanged. -/
def applyOp (s : Store) : DBOp → Store
  | .device r =>
    if s.devices.any (deviceConflict r) then s
    else { s with devices := s.devices ++ [r] }
  | .firmware r =>
    if s.firmwares.any (firmwareConflict r) then s
    else { s with firmwares := s.firmwares ++ [r] }
  | .identity r =>
    if s.buildmanifest.any (identityConflict r) then s
    else { s with buildmanifest := s.buildmanifest ++ [r] }

/-- Apply a sequence of attempted inserts in order. -/
def applyOps (s : Store) (ops : List DBOp) : Store :=
  ops.foldl applyOp s

/-! ## External world

Responses of the network and of the third-party libraries (`aiohttp`,
`remotezip`, `plistlib`) are supplied by a fixed environment: the claims
about repeated passes assume unchanged upstream responses, which is exactly
a fixed `Env`. -/

/-- Response to a `HEAD` probe: status and `Content-Length` header. -/
structure HeadResp where
  status : Nat
  contentLength : Nat
deriving DecidableEq, Repr

/-- Response to a `GET`: status and body bytes. -/
structure GetResp where
  status : Nat
  body : List Nat
deriving DecidableEq, Repr

/-- One build identity of a parsed `BuildManifest.plist`.  `Info` keys that
may be absent are `Option`s; `ApChipID`/`ApBoardID` are hex strings. -/
structure BIdentity where
  restoreBehavior : Option String
  deviceClass : String
  buildNumber : String
  apChipID : String
  apBoardID : String
  uniqueBuildID : List Nat
deriving DecidableEq, Repr

/-- A parsed build manifest: its `BuildIdentities` array. -/
structure Manifest where
  buildIdentities : List BIdentity
deriving DecidableEq, Repr

/-- The external world: `head`/`get` give the transport's responses,
`zip` gives the remote archive's entries (`none` models any `RemoteZip`
failure: open, listing or read), and `plist` is `plistlib.loads`. -/
structure Env where
  head : URL → HeadResp
  get : URL → GetResp
  zip : URL → Option (List (String × List Nat))
  plist : List Nat → Manifest

/-- Errors that can escape the harvest: the `HTTPException` raised on a
non-200 catalog fetch, and the `ValueError` raised by `int(_, 16)` on a
malformed hex string. -/
inductive Err where
  | httpException (status : Nat) (reason : String)
  | valueError
deriving DecidableEq, Repr

/-! ## Manifest resolver (`get_manifest`, `_sync_get_manifest`) -/

/-- `_sync_get_manifest`: open the archive remotely and read the first entry
whose name contains `BuildManifest`; the bare `except:` maps every failure
(open error, `StopIteration` from `next` when no entry matches, read error)
to `None`. -/
def syncGetManifest (e : Env) (url : URL) : Option (List Nat) :=
  match e.zip url with
  | none => none
  | some entries =>
    match entries.find? (fun ent => pyIn "BuildManifest" ent.1) with
    | some ent => some ent.2
    | none => none

/-- `get_manifest`: fetch the sibling `BuildManifest.plist` URL; on status
200 return its body, otherwise run the archive fallback. -/
def getManifest (e : Env) (url : URL) : Option (List Nat) :=
  let resp := e.get (manifestURL url)
  if resp.status == 200 then some resp.body
  else syncGetManifest e url

/-! ## Per-firmware scraping (`AppleDB._scrape_firmware`) -/

/-- The AppleDB catalog's shape for one download link. -/
structure CatalogLink where
  url : URL
deriving DecidableEq, Repr

/-- One `sources` entry of a catalog firmware. -/
structure CatalogSource where
  ty : String
  links : List CatalogLink
  deviceMap : List String
deriving DecidableEq, Repr

/-- One entry of the catalog's `ios` array.  `sources` is `none` when the
key is absent. -/
structure CatalogFirmware where
  osStr : String
  beta : Bool
  rc : Bool
  sources : Option (List CatalogSource)
  build : String
  version : String
deriving DecidableEq, Repr

/-- One entry of the catalog's `device` array.  `arch` is `none` when the
key is absent. -/
structure CatalogDevice where
  key : String
  arch : Option String
  ty : String
  board : List String
deriving DecidableEq, Repr

/-- The parsed catalog document. -/
structure Catalog where
  ios : List CatalogFirmware
  device : List CatalogDevice
deriving DecidableEq, Repr

/-- The `for _ in range(3)` probe loop on one link: up to `n` `HEAD`
requests, stopping at the first status-200 response, whose
`Content-Length` is captured. -/
def probeTries (e : Env) (u : URL) : Nat → Option Nat
  | 0 => none
  | n + 1 =>
    if (e.head u).status == 200 then some (e.head u).contentLength
    else probeTries e u n

/-- The `for link in source['links']` loop: the first link whose probe
succeeds, with its content length; `none` when every link fails
(the firmware is silently skipped). -/
def findLink (e : Env) : List CatalogLink → Option (URL × Nat)
  | [] => none
  | l :: ls =>
    match probeTries e l.url 3 with
    | some n => some (l.url, n)
    | none => findLink e ls

/-- The manifest retry loop: up to `n` calls of `get_manifest`, stopping at
the first non-`None` result (the bare `except: continue` makes a raising
attempt indistinguishable from a `None` one). -/
def manifestTries (e : Env) (u : URL) : Nat → Option (List Nat)
  | 0 => none
  | n + 1 =>
    match getManifest e u with
    | some b => some b
    | none => manifestTries e u n

/-- The `for identity in manifest['BuildIdentities']` loop.  Identities
without a `RestoreBehavior` key or with one other than `Erase` are skipped;
a malformed hex `ApChipID`/`ApBoardID` raises `ValueError` (only
`IntegrityError` is caught), which aborts the loop; otherwise the insert is
attempted and a duplicate is swallowed by `continue`.  Returns the raised
error (if any) and the attempted inserts. -/
def processIdentities : List BIdentity → Option Err × List DBOp
  | [] => (none, [])
  | i :: rest =>
    match i.restoreBehavior with
    | none => processIdentities rest
    | some rb =>
      if rb ≠ "Erase" then processIdentities rest
      else
        match parseHex i.apChipID with
        | none => (some .valueError, [])
        | some c =>
          match parseHex i.apBoardID with
          | none => (some .valueError, [])
          | some b =>
            ((processIdentities rest).1,
              .identity ⟨i.deviceClass, i.buildNumber, c, b, i.uniqueBuildID⟩
                :: (processIdentities rest).2)

/-- `', '.join(source['deviceMap'])`. -/
def joinDevices (l : List String) : String :=
  String.intercalate ", " l

/-- The `for source in firmware['sources']` loop of `_scrape_firmware`.
Non-`ipsw` sources and sources with no working link are skipped; a working
link yields a firmware insert; a three-times-failed manifest fetch is the
`return` that ends the whole firmware (no error); identities are then
processed, a `ValueError` there ending the firmware with an error. -/
def processSources (e : Env) (fw : CatalogFirmware) :
    List CatalogSource → Option Err × List DBOp
  | [] => (none, [])
  | src :: rest =>
    if src.ty ≠ "ipsw" then processSources e fw rest
    else
      match findLink e src.links with
      | none => processSources e fw rest
      | some (url, size) =>
        let fwOp : DBOp :=
          .firmware ⟨fw.version, fw.build, url, size, joinDevices src.deviceMap⟩
        match manifestTries e url 3 with
        | none => (none, [fwOp])
        | some bytes =>
          match processIdentities (e.plist bytes).buildIdentities with
          | (some er, ops) => (some er, fwOp :: ops)
          | (none, ops) =>
            ((processSources e fw rest).1,
              fwOp :: ops ++ (processSources e fw rest).2)

/-- `_scrape_firmware` on one catalog firmware (its `sources` key is present
for every firmware that passed the harvest filter). -/
def scrapeFirmware (e : Env) (fw : CatalogFirmware) : Option Err × List DBOp :=
  processSources e fw (fw.sources.getD [])

/-! ## The harvest pass (`AppleDB.scrape_data`) -/

/-- The firmware filter of `scrape_data`: recognized OS family, a present
`sources` key, and beta or release candidate. -/
def keepFirmware (f : CatalogFirmware) : Bool :=
  (f.osStr == "iPadOS" || f.osStr == "iOS" || f.osStr == "Apple TV Software"
      || f.osStr == "tvOS")
    && f.sources.isSome
    && !(f.beta == false && f.rc == false)

/-- The device filter of `scrape_data`: an `arch` containing `arm`, a
recognized device category, and a non-empty board list. -/
def keepDevice (d : CatalogDevice) : Bool :=
  (match d.arch with
    | some a => pyIn "arm" a
    | none => false)
    && (d.ty == "iPhone" || d.ty == "iPad" || d.ty == "iPad mini"
        || d.ty == "iPad Air" || d.ty == "iPad Pro" || d.ty == "Apple TV")
    && !(d.board.length == 0)

/-- Stable insertion of one firmware into a build-descending list. -/
def insertDesc (f : CatalogFirmware) : List CatalogFirmware → List CatalogFirmware
  | [] => [f]
  | g :: gs => if g.build < f.build then f :: g :: gs else g :: insertDesc f gs

/-- `firmwares.sort(key=lambda x: x['build'], reverse=True)`: a stable
descending sort by build string. -/
def sortFirmwares (l : List CatalogFirmware) : List CatalogFirmware :=
  l.foldl (fun acc f => insertDesc f acc) []

/-- `_scrape_device`: one attempted insert of `(key, board[0])`
(the filter guarantees `board` is non-empty). -/
def scrapeDeviceOp (d : CatalogDevice) : DBOp :=
  .device ⟨d.key, d.board.headD ""⟩

/-- The per-firmware task fan-out, sequentialized: each firmware's attempted
inserts in order, stopping when a task raises (the `TaskGroup` cancels the
rest of the pass). -/
def harvestFirmwares (e : Env) : List CatalogFirmware → Option Err × List DBOp
  | [] => (none, [])
  | f :: fs =>
    match scrapeFirmware e f with
    | (some er, ops) => (some er, ops)
    | (none, ops) =>
      ((harvestFirmwares e fs).1, ops ++ (harvestFirmwares e fs).2)

/-- The whole harvest pass after a successful catalog fetch: the device
inserts, then the firmware pipeline over the filtered, build-descending
firmware list.  Returns the error that escaped the `TaskGroup` (if any) and
the attempted inserts. -/
def harvestOps (e : Env) (c : Catalog) : Option Err × List DBOp :=
  ((harvestFirmwares e (sortFirmwares (c.ios.filter keepFirmware))).1,
    (c.device.filter keepDevice).map scrapeDeviceOp
      ++ (harvestFirmwares e (sortFirmwares (c.ios.filter keepFirmware))).2)

/-- The catalog fetch's response: status, reason, and parsed JSON body. -/
structure CatalogResp where
  status : Nat
  reason : String
  data : Catalog

/-- `AppleDB.scrape_data`: a non-200 catalog response raises `HTTPException`
before anything is written; otherwise the harvest runs and its attempted
inserts are applied to the store. -/
def scrapeData (e : Env) (resp : CatalogResp) (s : Store) : Option Err × Store :=
  if resp.status ≠ 200 then
    (some (.httpException resp.status resp.reason), s)
  else
    ((harvestOps e resp.data).1, applyOps s (harvestOps e resp.data).2)

/-! ## Signing verifier (`_is_firmware_signed`) -/

/-- The Tatsu request dictionary.  Keys that are only present on one branch
of the 32-bit/64-bit split are `Option`s (`none` = key absent).  `ApNonce`,
`SepNonce` are the byte string `b'0'` = `[0x30]`. -/
structure TSSRequest where
  apChipID : Nat
  apBoardID : Nat
  apECID : Nat
  apSecurityDomain : Nat
  apNonce : List Nat
  apProductionMode : Bool
  uniqueBuildID : List Nat
  apTicket : Option Bool
  apImg4Ticket : Option Bool
  apSecurityMode : Option Bool
  sepNonce : Option (List Nat)
deriving DecidableEq, Repr

/-- Lines 232–247 of `scraper.py`: the request built for one build identity.
Chip ids in the 32-bit range `0x8900 ≤ c < 0x8960` get `@APTicket`; all
others get `@ApImg4Ticket`, `ApSecurityMode` and `SepNonce`. -/
def buildTSSRequest (chip_id board_id : Nat) (ubid : List Nat) : TSSRequest :=
  let base : TSSRequest :=
    { apChipID := chip_id, apBoardID := board_id, apECID := 1,
      apSecurityDomain := 1, apNonce := [0x30], apProductionMode := true,
      uniqueBuildID := ubid, apTicket := none, apImg4Ticket := none,
      apSecurityMode := none, sepNonce := none }
  if 0x8900 ≤ chip_id ∧ chip_id < 0x8960 then
    { base with apTicket := some true }
  else
    { base with apImg4Ticket := some true, apSecurityMode := some true,
                sepNonce := some [0x30] }

/-- The firmware dictionary handled by the query service
(`get_beta_firmwares` builds it with keys `version`, `buildid`, `filesize`,
`url`; `_is_firmware_signed` may add `signed`, modelled as an `Option`). -/
structure FirmwareRec where
  version : String
  buildid : String
  filesize : Nat
  url : URL
  signed : Option Bool
deriving DecidableEq, Repr

/-- `SELECT boardconfig FROM devices WHERE identifier LIKE '%id%'` followed
by `fetchone()`: the first matching row's boardconfig. -/
def deviceLookup (s : Store) (identifier : String) : Option String :=
  (s.devices.find? (fun d => likeContains identifier d.identifier)).map
    (fun d => d.boardconfig)

/-- `SELECT chip_id, board_id, unique_buildid FROM buildmanifest WHERE
boardconfig LIKE '%bc%' AND buildid = ?` followed by `fetchone()`. -/
def identityLookup (s : Store) (bc buildid : String) : Option IdentityRow :=
  s.buildmanifest.find?
    (fun r => likeContains bc r.boardconfig && r.buildid == buildid)

/-- `DELETE FROM firmwares WHERE buildid = ? AND devices LIKE '%id%'`. -/
def deleteFirmwares (s : Store) (buildid identifier : String) : Store :=
  { s with firmwares := (s.firmwares.filter
      (fun r => !(r.buildid == buildid && likeContains identifier r.devices))) }

/-- `_is_firmware_signed`, with the signing service modelled as a function
`tss` from the posted request to the textual response body.  Returns the
function's result (`none` models the bare `return`) and the store after the
call (the self-healing path deletes firmware rows). -/
def isFirmwareSignedModel (tss : TSSRequest → String) (s : Store)
    (identifier : String) (fw : FirmwareRec) : Option FirmwareRec × Store :=
  match deviceLookup s identifier with
  | none => (none, s)
  | some bc =>
    match identityLookup s bc fw.buildid with
    | none => (none, deleteFirmwares s fw.buildid identifier)
    | some row =>
      let req := buildTSSRequest row.chip_id row.board_id row.unique_buildid
      (some { fw with signed := some (pyIn "MESSAGE=SUCCESS" (tss req)) }, s)

/-! ## The HTTP semaphore (`HTTP_SEMAPHORE`)

The semaphore is modelled by the event trace each code path emits: an
`acquire`/`release` pair around the guarded section, and one `net` event per
outbound request.  A trace is *guarded* when every `net` event happens while
at least one permit is held. -/

/-- `asyncio.Semaphore(100)`: the pool's capacity. -/
def HTTP_SEMAPHORE_capacity : Nat := 100

/-- The kinds of outbound network operations the process performs. -/
inductive NetKind where
  | catalogFetch
  | headProbe (u : URL)
  | manifestGet (u : URL)
  | zipFetch (u : URL)
  | tssPost
deriving DecidableEq, Repr

/-- One event of a semaphore trace. -/
inductive TraceEv where
  | acquire
  | release
  | net (k : NetKind)
deriving DecidableEq, Repr

/-- Is an event a network operation? -/
def isNetEv : TraceEv → Bool
  | .net _ => true
  | _ => false

/-- `guardedFrom h t`: with `h` permits currently held, does every network
event of `t` run while a permit is held? -/
def guardedFrom (h : Nat) : List TraceEv → Bool
  | [] => true
  | .acquire :: r => guardedFrom (h + 1) r
  | .release :: r => guardedFrom (h - 1) r
  | .net _ :: r => decide (0 < h) && guardedFrom h r

/-- Network events of the probe retry loop on one link. -/
def probeTriesTrace (e : Env) (u : URL) : Nat → List TraceEv
  | 0 => []
  | n + 1 =>
    .net (.headProbe u)
      :: (if (e.head u).status == 200 then [] else probeTriesTrace e u n)

/-- Network events of the link-selection loop. -/
def findLinkTrace (e : Env) : List CatalogLink → List TraceEv
  | [] => []
  | l :: ls =>
    probeTriesTrace e l.url 3
      ++ (match probeTries e l.url 3 with
          | some _ => []
          | none => findLinkTrace e ls)

/-- Network events of one `get_manifest` call: the sibling GET, then (only
on a non-200 status) the range-request fallback against the archive. -/
def getManifestTrace (e : Env) (u : URL) : List TraceEv :=
  .net (.manifestGet (manifestURL u))
    :: (if (e.get (manifestURL u)).status == 200 then []
        else [.net (.zipFetch u)])

/-- Network events of the manifest retry loop. -/
def manifestTriesTrace (e : Env) (u : URL) : Nat → List TraceEv
  | 0 => []
  | n + 1 =>
    getManifestTrace e u
      ++ (match getManifest e u with
          | some _ => []
          | none => manifestTriesTrace e u n)

/-- Network events of `_scrape_firmware`'s source loop, mirroring
`processSources`' control flow. -/
def sourcesTrace (e : Env) : List CatalogSource → List TraceEv
  | [] => []
  | src :: rest =>
    if src.ty ≠ "ipsw" then sourcesTrace e rest
    else
      match findLink e src.links with
      | none => findLinkTrace e src.links ++ sourcesTrace e rest
      | some (url, _) =>
        findLinkTrace e src.links
          ++ manifestTriesTrace e url 3
          ++ (match manifestTries e url 3 with
              | none => []
              | some bytes =>
                match processIdentities (e.plist bytes).buildIdentities with
                | (some _, _) => []
                | (none, _) => sourcesTrace e rest)

/-- Network events of `_scrape_firmware` on one catalog firmware. -/
def scrapeFirmwareTrace (e : Env) (fw : CatalogFirmware) : List TraceEv :=
  sourcesTrace e (fw.sources.getD [])

/-- `_bound_scrape_firmware`: one permit is acquired around the whole
per-firmware scrape and released afterwards (also on an exception, by
`async with`). -/
def boundScrapeFirmwareTrace (e : Env) (fw : CatalogFirmware) : List TraceEv :=
  .acquire :: scrapeFirmwareTrace e fw ++ [.release]

/-- The firmware task fan-out's events, stopping after a raising task. -/
def firmwaresTrace (e : Env) : List CatalogFirmware → List TraceEv
  | [] => []
  | f :: fs =>
    boundScrapeFirmwareTrace e f
      ++ (match scrapeFirmware e f with
          | (some _, _) => []
          | (none, _) => firmwaresTrace e fs)

/-- The events of one `scrape_data` pass: the catalog fetch (issued outside
any semaphore), then — on a 200 response — the per-firmware tasks. -/
def scrapeDataTrace (e : Env) (resp : CatalogResp) : List TraceEv :=
  .net .catalogFetch
    :: (if resp.status ≠ 200 then []
        else firmwaresTrace e
          (sortFirmwares (resp.data.ios.filter keepFirmware)))

/-- The events of one `is_firmware_signed` call: a permit around
`_is_firmware_signed`, whose only network operation is the TSS POST on the
path where both lookups succeed. -/
def isFirmwareSignedTrace (s : Store) (identifier : String)
    (fw : FirmwareRec) : List TraceEv :=
  .acquire
    :: (match deviceLookup s identifier with
        | none => []
        | some bc =>
          match identityLookup s bc fw.buildid with
          | none => []
          | some _ => [.net .tssPost])
      ++ [.release]

/-! ## Refresh loop (`main`) -/

/-- Observable events of the refresh loop: one `pass i` per harvest attempt
and one `sleep 60` per completed wait. -/
inductive LoopEvent where
  | pass (i : Nat)
  | sleep (secs : Nat)
deriving DecidableEq, Repr

/-- The `while True: await appledb.scrape_data(); await asyncio.sleep(60)`
loop, run for `fuel` iterations starting at iteration `i`; `runPass` gives
each pass's outcome.  There is no exception handler: a raising pass
propagates out of the loop, so no sleep and no further pass follows it. -/
def refreshLoop (runPass : Nat → Option Err) : Nat → Nat → List LoopEvent
  | 0, _ => []
  | fuel + 1, i =>
    match runPass i with
    | none => .pass i :: .sleep 60 :: refreshLoop runPass fuel (i + 1)
    | some _ => [.pass i]

/-! ## Store lemmas: conflict-swallowing inserts are idempotent -/

theorem deviceConflict_self (r : DeviceRow) : deviceConflict r r = true := by
  simp [deviceConflict]

theorem firmwareConflict_self (r : FirmwareRow) : firmwareConflict r r = true := by
  simp [firmwareConflict]

theorem identityConflict_self (r : IdentityRow) : identityConflict r r = true := by
  simp [identityConflict]

theorem mem_devices_applyOp (s : Store) (op : DBOp) (x : DeviceRow)
    (h : x ∈ s.devices) : x ∈ (applyOp s op).devices := by
  cases op <;> simp only [applyOp] <;> split <;> simp_all

theorem mem_firmwares_applyOp (s : Store) (op : DBOp) (x : FirmwareRow)
    (h : x ∈ s.firmwares) : x ∈ (applyOp s op).firmwares := by
  cases op <;> simp only [applyOp] <;> split <;> simp_all

theorem mem_buildmanifest_applyOp (s : Store) (op : DBOp) (x : IdentityRow)
    (h : x ∈ s.buildmanifest) : x ∈ (applyOp s op).buildmanifest := by
  cases op <;> simp only [applyOp] <;> split <;> simp_all

/-- A conflict never disappears: rows are only ever appended. -/
theorem opConflicts_mono (s : Store) (op op' : DBOp)
    (h : opConflicts s op = true) : opConflicts (applyOp s op') op = true := by
  cases op with
  | device r =>
    simp only [opConflicts, List.any_eq_true] at h ⊢
    obtain ⟨x, hx, hc⟩ := h
    exact ⟨x, mem_devices_applyOp s op' x hx, hc⟩
  | firmware r =>
    simp only [opConflicts, List.any_eq_true] at h ⊢
    obtain ⟨x, hx, hc⟩ := h
    exact ⟨x, mem_firmwares_applyOp s op' x hx, hc⟩
  | identity r =>
    simp only [opConflicts, List.any_eq_true] at h ⊢
    obtain ⟨x, hx, hc⟩ := h
    exact ⟨x, mem_buildmanifest_applyOp s op' x hx, hc⟩

/-- After an attempted insert, its row conflicts with the store (either it
was appended, or the row it collided with is still there). -/
theorem opConflicts_applyOp_self (s : Store) (op : DBOp) :
    opConflicts (applyOp s op) op = true := by
  cases op with
  | device r =>
    by_cases h : s.devices.any (deviceConflict r) = true
    · simp [applyOp, h, opConflicts]
    · simp only [applyOp, h, if_false, opConflicts, List.any_eq_true]
      exact ⟨r, by simp, deviceConflict_self r⟩
  | firmware r =>
    by_cases h : s.firmwares.any (firmwareConflict r) = true
    · simp [applyOp, h, opConflicts]
    · simp only [applyOp, h, if_false, opConflicts, List.any_eq_true]
      exact ⟨r, by simp, firmwareConflict_self r⟩
  | identity r =>
    by_cases h : s.buildmanifest.any (identityConflict r) = true
    · simp [applyOp, h, opConflicts]
    · simp only [applyOp, h, if_false, opConflicts, List.any_eq_true]
      exact ⟨r, by simp, identityConflict_self r⟩

/-- A conflicting insert is swallowed: the store is unchanged. -/
theorem applyOp_of_conflicts (s : Store) (op : DBOp)
    (h : opConflicts s op = true) : applyOp s op = s := by
  cases op <;> simp only [opConflicts] at h <;> simp [applyOp, h]

theorem opConflicts_applyOps_mono (s : Store) (ops : List DBOp) (op : DBOp)
    (h : opConflicts s op = true) : opConflicts (applyOps s ops) op = true := by
  induction ops generalizing s with
  | nil => exact h
  | cons o rest ih => exact ih (applyOp s o) (opConflicts_mono s op o h)

/-- After a pass, every insert the pass attempted conflicts with the store. -/
theorem opConflicts_applyOps_of_mem (s : Store) (ops : List DBOp) (op : DBOp)
    (h : op ∈ ops) : opConflicts (applyOps s ops) op = true := by
  induction ops generalizing s with
  | nil => cases h
  | cons o rest ih =>
    rcases List.mem_cons.mp h with rfl | hmem
    · exact opConflicts_applyOps_mono (applyOp s op) rest op
        (opConflicts_applyOp_self s op)
    · exact ih (applyOp s o) hmem

/-- A pass all of whose inserts already conflict changes nothing. -/
theorem applyOps_of_all_conflict (s : Store) (ops : List DBOp)
    (h : ∀ op ∈ ops, opConflicts s op = true) : applyOps s ops = s := by
  induction ops with
  | nil => rfl
  | cons o rest ih =>
    have ho : applyOp s o = s := applyOp_of_conflicts s o (h o (by simp))
    calc applyOps s (o :: rest) = applyOps (applyOp s o) rest := rfl
      _ = applyOps s rest := by rw [ho]
      _ = s := ih (fun op hop => h op (by simp [hop]))

/-- Replaying the same insert sequence is a no-op. -/
theorem applyOps_idempotent (s : Store) (ops : List DBOp) :
    applyOps (applyOps s ops) ops = applyOps s ops :=
  applyOps_of_all_conflict (applyOps s ops) ops
    (fun op hop => opConflicts_applyOps_of_mem s ops op hop)

/-! ## Claim theorems -/

/-- C1: for every signing check, a chip id in the legacy range
`[0x8900, 0x895F]` makes the signing-ticket request carry the legacy
`@APTicket` flag and omit `@ApImg4Ticket`, `ApSecurityMode` and `SepNonce`;
any chip id outside that range makes it carry `@ApImg4Ticket`,
`ApSecurityMode` and the secondary nonce `SepNonce`, and omit `@APTicket`. -/
theorem tss_ticket_flags_by_chip_range (c b : Nat) (u : List Nat) :
    ((0x8900 ≤ c ∧ c ≤ 0x895F) →
      (buildTSSRequest c b u).apTicket = some true
        ∧ (buildTSSRequest c b u).apImg4Ticket = none
        ∧ (buildTSSRequest c b u).apSecurityMode = none
        ∧ (buildTSSRequest c b u).sepNonce = none)
    ∧ (¬(0x8900 ≤ c ∧ c ≤ 0x895F) →
      (buildTSSRequest c b u).apImg4Ticket = some true
        ∧ (buildTSSRequest c b u).apTicket = none
        ∧ (buildTSSRequest c b u).apSecurityMode = some true
        ∧ (buildTSSRequest c b u).sepNonce = some [0x30]) := by
  constructor
  · intro h
    have hc : 0x8900 ≤ c ∧ c < 0x8960 := ⟨h.1, by omega⟩
    simp [buildTSSRequest, hc]
  · intro h
    have hc : ¬(0x8900 ≤ c ∧ c < 0x8960) := by
      intro hc
      exact h ⟨hc.1, by omega⟩
    simp [buildTSSRequest, hc]

/-- Witness for C1 at the range's boundaries: chip id `0x8900` gets the
legacy flag, chip id `0x8960` gets the modern flags. -/
theorem tss_ticket_flags_by_chip_range_witness :
    (buildTSSRequest 0x8900 1 []).apTicket = some true
      ∧ (buildTSSRequest 0x8960 1 []).apImg4Ticket = some true
      ∧ (buildTSSRequest 0x8960 1 []).sepNonce = some [0x30] :=
  ⟨((tss_ticket_flags_by_chip_range 0x8900 1 []).1 (by decide)).1,
   ((tss_ticket_flags_by_chip_range 0x8960 1 []).2 (by decide)).1,
   ((tss_ticket_flags_by_chip_range 0x8960 1 []).2 (by decide)).2.2.2⟩

/-- C2: whenever the boardconfig and a matching build identity are found,
`_is_firmware_signed` returns the input firmware annotated with
`signed = (the response body contains the substring MESSAGE=SUCCESS)`, and
the store is untouched. -/
theorem checkSigned_marker (tss : TSSRequest → String) (s : Store)
    (identifier : String) (fw : FirmwareRec) (bc : String) (row : IdentityRow)
    (h1 : deviceLookup s identifier = some bc)
    (h2 : identityLookup s bc fw.buildid = some row) :
    isFirmwareSignedModel tss s identifier fw =
      (some { fw with signed := some (pyIn "MESSAGE=SUCCESS"
          (tss (buildTSSRequest row.chip_id row.board_id row.unique_buildid))) },
        s) := by
  simp [isFirmwareSignedModel, h1, h2]

/-- The store used by the C2 witness: one device, one matching identity. -/
def c2Store : Store :=
  { devices := [⟨"iPhone10,6", "D21AP"⟩],
    firmwares := [],
    buildmanifest := [⟨"D21AP", "20A1234", 0x8015, 6, [1]⟩] }

/-- The firmware record used by the C2 witness. -/
def c2Fw : FirmwareRec :=
  { version := "16.0", buildid := "20A1234", filesize := 5000000000,
    url := ⟨"https", "x", ["a", "y.ipsw"]⟩, signed := none }

/-- A signing service whose response body carries the success marker. -/
def c2Tss : TSSRequest → String := fun _ => "STATUS=0 MESSAGE=SUCCESS"

/-- Witness for C2: with a response containing `MESSAGE=SUCCESS`, the
firmware comes back annotated `signed = true`. -/
theorem checkSigned_marker_witness :
    deviceLookup c2Store "iPhone10,6" = some "D21AP"
      ∧ identityLookup c2Store "D21AP" "20A1234"
          = some ⟨"D21AP", "20A1234", 0x8015, 6, [1]⟩
      ∧ (isFirmwareSignedModel c2Tss c2Store "iPhone10,6" c2Fw).1
          = some { c2Fw with signed := some true } := by
  refine ⟨by decide, by decide, ?_⟩
  rw [checkSigned_marker c2Tss c2Store "iPhone10,6" c2Fw "D21AP"
    ⟨"D21AP", "20A1234", 0x8015, 6, [1]⟩ (by decide) (by decide)]
  decide

/-- C5: a non-200 catalog response makes `scrape_data` raise the
`HTTPException` before anything is written: the store the pass returns is
exactly the store it started from. -/
theorem scrapeData_non200_aborts (e : Env) (resp : CatalogResp) (s : Store)
    (h : resp.status ≠ 200) :
    scrapeData e resp s = (some (.httpException resp.status resp.reason), s) := by
  simp [scrapeData, h]

/-- An environment with no reachable network at all. -/
def c5Env : Env :=
  { head := fun _ => ⟨0, 0⟩, get := fun _ => ⟨0, []⟩,
    zip := fun _ => none, plist := fun _ => ⟨[]⟩ }

/-- Witness for C5: a 404 catalog response aborts the pass and leaves the
empty store empty. -/
theorem scrapeData_non200_aborts_witness :
    (404 : Nat) ≠ 200
      ∧ scrapeData c5Env ⟨404, "Not Found", ⟨[], []⟩⟩ ⟨[], [], []⟩
          = (some (.httpException 404 "Not Found"), ⟨[], [], []⟩) :=
  ⟨by decide,
   scrapeData_non200_aborts c5Env ⟨404, "Not Found", ⟨[], []⟩⟩ ⟨[], [], []⟩
     (by decide)⟩

/-- C9: `get_manifest` derives the sibling URL by replacing the archive's
final path segment with `BuildManifest.plist`; a 200 response returns its
body; otherwise the archive fallback runs, and every failure inside the
fallback (archive unreadable, no entry whose name contains `BuildManifest`)
yields `none` instead of raising. -/
theorem getManifest_fallback (e : Env) (u : URL) :
    ((manifestURL u).path = u.path.dropLast ++ ["BuildManifest.plist"]
        ∧ (manifestURL u).scheme = u.scheme
        ∧ (manifestURL u).netloc = u.netloc)
    ∧ ((e.get (manifestURL u)).status = 200 →
        getManifest e u = some (e.get (manifestURL u)).body)
    ∧ ((e.get (manifestURL u)).status ≠ 200 →
        getManifest e u = syncGetManifest e u
          ∧ (e.zip u = none → getManifest e u = none)
          ∧ (∀ entries, e.zip u = some entries →
              entries.find? (fun ent => pyIn "BuildManifest" ent.1) = none →
              getManifest e u = none)) := by
  refine ⟨⟨rfl, rfl, rfl⟩, fun h => ?_, fun h => ?_⟩
  · simp [getManifest, h]
  · refine ⟨by simp [getManifest, h], fun hz => ?_, fun entries hz hf => ?_⟩
    · simp [getManifest, h, syncGetManifest, hz]
    · simp [getManifest, h, syncGetManifest, hz, hf]

/-- The environment of the C9 witness: the sibling fetch 404s and the
archive cannot be opened. -/
def c9Env : Env :=
  { head := fun _ => ⟨0, 0⟩, get := fun _ => ⟨404, []⟩,
    zip := fun _ => none, plist := fun _ => ⟨[]⟩ }

/-- The archive URL of the C9 witness. -/
def c9URL : URL := ⟨"https", "updates.example", ["ios", "y.ipsw"]⟩

/-- Witness for C9: with a 404 sibling response and an unreadable archive,
`get_manifest` returns `none` (no exception), and the sibling path is the
archive's directory plus `BuildManifest.plist`. -/
theorem getManifest_fallback_witness :
    (manifestURL c9URL).path = ["ios", "BuildManifest.plist"]
      ∧ getManifest c9Env c9URL = none :=
  ⟨by decide,
   ((getManifest_fallback c9Env c9URL).2.2 (by decide)).2.1 rfl⟩

/-- C10: `_is_firmware_signed` either returns no result or returns the
input firmware with the single key `signed` set and every other field
(`version`, `buildid`, `filesize`, `url`) unchanged; being a pure function
of its input record, it modifies nothing on the no-result paths. -/
theorem checkSigned_frame (tss : TSSRequest → String) (s : Store)
    (identifier : String) (fw : FirmwareRec) :
    (isFirmwareSignedModel tss s identifier fw).1 = none
      ∨ ∃ b, (isFirmwareSignedModel tss s identifier fw).1
          = some { fw with signed := some b } := by
  rcases hdl : deviceLookup s identifier with _ | bc
  · left
    simp [isFirmwareSignedModel, hdl]
  · rcases hil : identityLookup s bc fw.buildid with _ | row
    · left
      simp [isFirmwareSignedModel, hdl, hil]
    · right
      exact ⟨pyIn "MESSAGE=SUCCESS"
          (tss (buildTSSRequest row.chip_id row.board_id row.unique_buildid)),
        by simp [isFirmwareSignedModel, hdl, hil]⟩

/-- C3: when the boardconfig is found but no build identity matches, the
self-healing path deletes every firmware row for that buildid/identifier
combination and returns no result: afterwards zero firmware rows match the
pair, and a later harvest pass can insert a firmware row for that pair
without violating the `(buildid, devices)` uniqueness constraint. -/
theorem checkSigned_selfHeal (tss : TSSRequest → String) (s : Store)
    (identifier : String) (fw : FirmwareRec) (bc : String)
    (h1 : deviceLookup s identifier = some bc)
    (h2 : identityLookup s bc fw.buildid = none) :
    (isFirmwareSignedModel tss s identifier fw).1 = none
      ∧ ((isFirmwareSignedModel tss s identifier fw).2).firmwares.filter
          (fun r => r.buildid == fw.buildid && likeContains identifier r.devices)
          = []
      ∧ (∀ r : FirmwareRow, r.buildid = fw.buildid →
          likeContains identifier r.devices = true →
          (applyOp (isFirmwareSignedModel tss s identifier fw).2
              (.firmware r)).firmwares
            = (isFirmwareSignedModel tss s identifier fw).2.firmwares ++ [r]) := by
  have hres : isFirmwareSignedModel tss s identifier fw
      = (none, deleteFirmwares s fw.buildid identifier) := by
    simp [isFirmwareSignedModel, h1, h2]
  rw [hres]
  refine ⟨rfl, ?_, ?_⟩
  · simp only [deleteFirmwares, List.filter_filter]
    apply List.filter_eq_nil_iff.mpr
    intro r _
    simp only [Bool.and_comm, Bool.not_and_self, Bool.and_not_self]
    simp
  · intro r hb hl
    have hany : (deleteFirmwares s fw.buildid identifier).firmwares.any
        (firmwareConflict r) = false := by
      apply List.any_eq_false.mpr
      intro x hx
      rw [deleteFirmwares] at hx
      simp only [List.mem_filter] at hx
      obtain ⟨_, hkeep⟩ := hx
      intro hconf
      simp only [firmwareConflict, Bool.and_eq_true, beq_iff_eq] at hconf
      rw [Bool.not_eq_true', Bool.and_eq_false_iff] at hkeep
      rcases hkeep with hk | hk
      · rw [hconf.1.symm, hb] at hk
        simp at hk
      · rw [← hconf.2, hl] at hk
        cases hk
    simp [applyOp, hany]

/-- The signing service of the C3 witness (never reached on this path). -/
def c3Tss : TSSRequest → String := fun _ => ""

/-- The store of the C3 witness: a device, a stale firmware row for build
`20A1234`, and no matching build identity. -/
def c3Store : Store :=
  { devices := [⟨"iPhone10,6", "D21AP"⟩],
    firmwares := [⟨"16.0", "20A1234", ⟨"https", "x", ["a", "y.ipsw"]⟩,
      5000000000, "iPhone10,3, iPhone10,6"⟩],
    buildmanifest := [⟨"D21AP", "19Z999", 0x8015, 6, [1]⟩] }

/-- The queried firmware record of the C3 witness. -/
def c3Fw : FirmwareRec :=
  { version := "16.0", buildid := "20A1234", filesize := 5000000000,
    url := ⟨"https", "x", ["a", "y.ipsw"]⟩, signed := none }

/-- The row the C3 witness re-inserts after the self-healing delete. -/
def c3Row : FirmwareRow :=
  ⟨"16.0", "20A1234", ⟨"https", "x", ["a", "y.ipsw"]⟩, 5000000000,
    "iPhone10,3, iPhone10,6"⟩

/-- Witness for C3: on a concrete store the self-healing path returns no
result, leaves zero rows for the buildid/identifier pair, and the deleted
row can be re-inserted without a uniqueness violation. -/
theorem checkSigned_selfHeal_witness :
    (isFirmwareSignedModel c3Tss c3Store "iPhone10,6" c3Fw).1 = none
      ∧ ((isFirmwareSignedModel c3Tss c3Store "iPhone10,6" c3Fw).2).firmwares.filter
          (fun r => r.buildid == c3Fw.buildid
            && likeContains "iPhone10,6" r.devices) = []
      ∧ (applyOp (isFirmwareSignedModel c3Tss c3Store "iPhone10,6" c3Fw).2
            (.firmware c3Row)).firmwares
          = (isFirmwareSignedModel c3Tss c3Store "iPhone10,6" c3Fw).2.firmwares
            ++ [c3Row] :=
  ⟨(checkSigned_selfHeal c3Tss c3Store "iPhone10,6" c3Fw "D21AP"
      (by decide) (by decide)).1,
   (checkSigned_selfHeal c3Tss c3Store "iPhone10,6" c3Fw "D21AP"
      (by decide) (by decide)).2.1,
   (checkSigned_selfHeal c3Tss c3Store "iPhone10,6" c3Fw "D21AP"
      (by decide) (by decide)).2.2 c3Row rfl (by decide)⟩

/-- C4: over an unchanged catalog and unchanged probe/manifest responses, a
harvest pass that completed without error leaves the store it produced
fixed: a second pass swallows every duplicate insert, adds no rows, and
raises no error. -/
theorem harvest_idempotent (e : Env) (resp : CatalogResp) (s s₁ : Store)
    (h : scrapeData e resp s = (none, s₁)) :
    scrapeData e resp s₁ = (none, s₁) := by
  unfold scrapeData at h ⊢
  by_cases hst : resp.status ≠ 200
  · simp [hst] at h
  · simp only [hst, if_false, Prod.mk.injEq] at h ⊢
    obtain ⟨h1, h2⟩ := h
    refine ⟨h1, ?_⟩
    rw [← h2]
    exact applyOps_idempotent s _

/-- The environment of the C4 witness: every probe succeeds with a 5 GB
content length, the sibling manifest fetch succeeds, and the manifest
carries one well-formed Erase identity. -/
def c4Env : Env :=
  { head := fun _ => ⟨200, 5000000000⟩,
    get := fun _ => ⟨200, [7]⟩,
    zip := fun _ => none,
    plist := fun _ => ⟨[⟨some "Erase", "D21AP", "20A1234", "0x8015", "0x6", [2]⟩]⟩ }

/-- The catalog of the C4 witness: one ARM iPhone and one beta iOS firmware
with a single ipsw link. -/
def c4Catalog : Catalog :=
  { ios := [⟨"iOS", true, false,
      some [⟨"ipsw", [⟨⟨"https", "x", ["a", "y.ipsw"]⟩⟩], ["iPhone10,6"]⟩],
      "20A1234", "16.0"⟩],
    device := [⟨"iPhone10,6", some "arm64e", "iPhone", ["D21AP"]⟩] }

/-- The store the C4 witness's first pass produces. -/
def c4Store : Store :=
  { devices := [⟨"iPhone10,6", "D21AP"⟩],
    firmwares := [⟨"16.0", "20A1234", ⟨"https", "x", ["a", "y.ipsw"]⟩,
      5000000000, "iPhone10,6"⟩],
    buildmanifest := [⟨"D21AP", "20A1234", 0x8015, 6, [2]⟩] }

/-- Witness for C4: a concrete harvest pass from the empty store writes one
device, one firmware and one identity row, and a second pass over the same
catalog and responses returns the very same store with no error. -/
theorem harvest_idempotent_witness :
    scrapeData c4Env ⟨200, "OK", c4Catalog⟩ ⟨[], [], []⟩ = (none, c4Store)
      ∧ scrapeData c4Env ⟨200, "OK", c4Catalog⟩ c4Store = (none, c4Store) :=
  ⟨by decide,
   harvest_idempotent c4Env ⟨200, "OK", c4Catalog⟩ ⟨[], [], []⟩ c4Store
     (by decide)⟩

/-! ### C6: per-identity error handling -/

/-- Is an identity kept by the `RestoreBehavior == 'Erase'` filter? -/
def keptIdentity (i : BIdentity) : Bool :=
  i.restoreBehavior == some "Erase"

/-- A kept identity is well formed when both its hex fields parse; skipped
identities are vacuously well formed. -/
def identityWF (i : BIdentity) : Bool :=
  !(keptIdentity i)
    || ((parseHex i.apChipID).isSome && (parseHex i.apBoardID).isSome)

/-- A kept Erase identity whose `ApChipID` is not valid hex. -/
def c6Bad : BIdentity :=
  ⟨some "Erase", "D21AP", "20A1234", "zz", "0x6", [1]⟩

/-- A kept, fully well-formed Erase identity. -/
def c6Good : BIdentity :=
  ⟨some "Erase", "D22AP", "20A1234", "0x8015", "0x6", [2]⟩

/-- Counterexample to C6 as stated: in a manifest whose first Erase identity
has the malformed hex chip id `"zz"`, processing stops with a `ValueError`
(only `IntegrityError` is caught by the identity loop) and the following
well-formed identity is never inserted — the malformed identity is not
"skipped only", it aborts the remaining identities and the owning firmware. -/
theorem identity_malformed_hex_aborts :
    processIdentities [c6Bad, c6Good] = (some Err.valueError, []) := by
  decide

/-- C6 as amended: a duplicate unique build token (any uniqueness violation)
causes only that single identity's insert to be swallowed, with the rest of
the manifest still processed and no error; a malformed hex chip-id or
board-id string, however, raises an uncaught `ValueError` that aborts the
remaining identities (and with them the owning firmware and the harvest
pass). -/
theorem identity_error_handling_amended :
    (∀ is : List BIdentity, (∀ i ∈ is, identityWF i = true) →
        (processIdentities is).1 = none)
    ∧ (∀ (s : Store) (r : IdentityRow),
        s.buildmanifest.any (identityConflict r) = true →
        applyOp s (.identity r) = s)
    ∧ (∀ (pre post : List BIdentity) (i : BIdentity),
        (∀ j ∈ pre, identityWF j = true) →
        keptIdentity i = true →
        (parseHex i.apChipID = none ∨ parseHex i.apBoardID = none) →
        (processIdentities (pre ++ i :: post)).1 = some Err.valueError) := by
  have step : ∀ (j : BIdentity) (l : List BIdentity), identityWF j = true →
      (processIdentities (j :: l)).1 = (processIdentities l).1 := by
    intro j l hj
    rcases hrb : j.restoreBehavior with _ | rb
    · simp [processIdentities, hrb]
    · by_cases hE : rb = "Erase"
      · subst hE
        simp only [identityWF, keptIdentity, hrb, beq_self_eq_true,
          Bool.not_true, Bool.false_or, Bool.and_eq_true,
          Option.isSome_iff_exists] at hj
        obtain ⟨⟨c, hc⟩, b, hb⟩ := hj
        simp [processIdentities, hrb, hc, hb]
      · simp [processIdentities, hrb, hE]
  refine ⟨?_, ?_, ?_⟩
  · intro is h
    induction is with
    | nil => rfl
    | cons j rest ih =>
      rw [step j rest (h j (by simp))]
      exact ih (fun x hx => h x (by simp [hx]))
  · intro s r h
    exact applyOp_of_conflicts s (.identity r) h
  · intro pre post i hpre hkept hbad
    induction pre with
    | nil =>
      simp only [keptIdentity, beq_iff_eq] at hkept
      rcases hbad with hbad | hbad
      · simp [processIdentities, hkept, hbad]
      · rcases hc : parseHex i.apChipID with _ | c
        · simp [processIdentities, hkept, hc]
        · simp [processIdentities, hkept, hc, hbad]
    | cons j rest ih =>
      rw [List.cons_append, step j (rest ++ i :: post) (hpre j (by simp))]
      exact ih (fun x hx => hpre x (by simp [hx]))

/-- A kept Erase identity whose `ApChipID` parses but whose `ApBoardID` is
not valid hex. -/
def c6BadBoard : BIdentity :=
  ⟨some "Erase", "D21AP", "20A1234", "0x8015", "xx", [3]⟩

/-- The store of the C6 witness: already contains the row that the
well-formed identity would insert, so the re-insert is a swallowed
duplicate. -/
def c6Store : Store :=
  { devices := [], firmwares := [],
    buildmanifest := [⟨"D22AP", "20A1234", 0x8015, 6, [2]⟩] }

/-- Witness for C6 (amended): a well-formed manifest processes without
error, a duplicate identity insert leaves the store unchanged, a malformed
hex chip id aborts with `ValueError`, and so does a malformed hex board
id. -/
theorem identity_error_handling_amended_witness :
    (processIdentities [c6Good]).1 = none
      ∧ applyOp c6Store (.identity ⟨"D22AP", "20A1234", 0x8015, 6, [2]⟩) = c6Store
      ∧ (processIdentities [c6Good, c6Bad]).1 = some Err.valueError
      ∧ (processIdentities [c6Good, c6BadBoard]).1 = some Err.valueError :=
  ⟨identity_error_handling_amended.1 [c6Good] (by decide),
   identity_error_handling_amended.2.1 c6Store
     ⟨"D22AP", "20A1234", 0x8015, 6, [2]⟩ (by decide),
   identity_error_handling_amended.2.2 [c6Good] [] c6Bad
     (by decide) (by decide) (Or.inl (by decide)),
   identity_error_handling_amended.2.2 [c6Good] [] c6BadBoard
     (by decide) (by decide) (Or.inr (by decide))⟩

/-! ### C7: semaphore guarding -/

theorem allNet_probeTriesTrace (e : Env) (u : URL) (n : Nat) :
    (probeTriesTrace e u n).all isNetEv = true := by
  induction n with
  | zero => rfl
  | succ n ih =>
    simp only [probeTriesTrace, List.all_cons, isNetEv, Bool.true_and]
    split
    · rfl
    · exact ih

theorem allNet_findLinkTrace (e : Env) (ls : List CatalogLink) :
    (findLinkTrace e ls).all isNetEv = true := by
  induction ls with
  | nil => rfl
  | cons l ls ih =>
    simp only [findLinkTrace, List.all_append, allNet_probeTriesTrace,
      Bool.true_and]
    split
    · rfl
    · exact ih

theorem allNet_getManifestTrace (e : Env) (u : URL) :
    (getManifestTrace e u).all isNetEv = true := by
  simp only [getManifestTrace, List.all_cons, isNetEv, Bool.true_and]
  split <;> rfl

theorem allNet_manifestTriesTrace (e : Env) (u : URL) (n : Nat) :
    (manifestTriesTrace e u n).all isNetEv = true := by
  induction n with
  | zero => rfl
  | succ n ih =>
    simp only [manifestTriesTrace, List.all_append, allNet_getManifestTrace,
      Bool.true_and]
    split
    · rfl
    · exact ih

theorem allNet_sourcesTrace (e : Env) (srcs : List CatalogSource) :
    (sourcesTrace e srcs).all isNetEv = true := by
  induction srcs with
  | nil => rfl
  | cons src rest ih =>
    simp only [sourcesTrace]
    split
    · exact ih
    · split
      · simp only [List.all_append, allNet_findLinkTrace, ih, Bool.and_self]
      · simp only [List.all_append, allNet_findLinkTrace,
          allNet_manifestTriesTrace, Bool.true_and]
        split
        · rfl
        · split
          · rfl
          · exact ih

/-- A network-only block run under one held permit, followed by the
permit's release, is guarded whenever what follows the release is. -/
theorem guardedFrom_allNet_release (inner rest : List TraceEv)
    (hall : inner.all isNetEv = true) (hrest : guardedFrom 0 rest = true) :
    guardedFrom 1 (inner ++ TraceEv.release :: rest) = true := by
  induction inner with
  | nil => simpa [guardedFrom] using hrest
  | cons ev t ih =>
    cases ev with
    | acquire => simp [isNetEv] at hall
    | release => simp [isNetEv] at hall
    | net k =>
      simp only [List.all_cons, isNetEv, Bool.true_and] at hall
      simp only [List.cons_append, guardedFrom]
      simpa using ih hall

theorem allNet_scrapeFirmwareTrace (e : Env) (f : CatalogFirmware) :
    (scrapeFirmwareTrace e f).all isNetEv = true :=
  allNet_sourcesTrace e (f.sources.getD [])

/-- One per-firmware task is guarded, whatever guarded trace follows it:
it acquires a permit, performs only network events, and releases it. -/
theorem guardedFrom_boundTrace (e : Env) (f : CatalogFirmware)
    (X : List TraceEv) (hX : guardedFrom 0 X = true) :
    guardedFrom 0 (boundScrapeFirmwareTrace e f ++ X) = true := by
  show guardedFrom 0
    ((TraceEv.acquire :: (scrapeFirmwareTrace e f ++ [TraceEv.release])) ++ X)
      = true
  rw [List.cons_append, List.append_assoc, List.singleton_append]
  show guardedFrom 1 (scrapeFirmwareTrace e f ++ TraceEv.release :: X) = true
  exact guardedFrom_allNet_release _ _ (allNet_scrapeFirmwareTrace e f) hX

/-- Every per-firmware task's events are guarded. -/
theorem guardedFrom_firmwaresTrace (e : Env) (fs : List CatalogFirmware) :
    guardedFrom 0 (firmwaresTrace e fs) = true := by
  induction fs with
  | nil => rfl
  | cons f fs ih =>
    rcases hsf : scrapeFirmware e f with ⟨er, ops⟩
    cases er with
    | none =>
      have heq : firmwaresTrace e (f :: fs)
          = boundScrapeFirmwareTrace e f ++ firmwaresTrace e fs := by
        simp [firmwaresTrace, hsf]
      rw [heq]
      exact guardedFrom_boundTrace e f _ ih
    | some er =>
      have heq : firmwaresTrace e (f :: fs)
          = boundScrapeFirmwareTrace e f ++ [] := by
        simp [firmwaresTrace, hsf]
      rw [heq]
      exact guardedFrom_boundTrace e f [] rfl

/-- The trivial environment of the C7 counterexample. -/
def c7Env : Env :=
  { head := fun _ => ⟨0, 0⟩, get := fun _ => ⟨0, []⟩,
    zip := fun _ => none, plist := fun _ => ⟨[]⟩ }

/-- Counterexample to C7 as stated: the catalog fetch of `scrape_data` is
issued with zero permits held — it is not guarded by `HTTP_SEMAPHORE`, so
not every outbound network operation acquires a permit before running. -/
theorem catalog_fetch_unguarded :
    scrapeDataTrace c7Env ⟨200, "OK", ⟨[], []⟩⟩
        = [TraceEv.net NetKind.catalogFetch]
      ∧ guardedFrom 0 (scrapeDataTrace c7Env ⟨200, "OK", ⟨[], []⟩⟩) = false := by
  decide

/-- C7 as amended: the permit pool has fixed capacity 100; every network
operation of the per-firmware scrape tasks (link probes, manifest fetches,
archive range requests) and of the signing checks runs while a permit of
the pool is held, the permit being released afterwards; the catalog fetch,
however, is the first event of a harvest pass and runs with no permit
held. -/
theorem semaphore_guarding_amended :
    HTTP_SEMAPHORE_capacity = 100
    ∧ (∀ (e : Env) (resp : CatalogResp),
        scrapeDataTrace e resp
            = TraceEv.net NetKind.catalogFetch :: (scrapeDataTrace e resp).tail
          ∧ guardedFrom 0 ((scrapeDataTrace e resp).tail) = true
          ∧ guardedFrom 0 (scrapeDataTrace e resp) = false)
    ∧ (∀ (s : Store) (identifier : String) (fw : FirmwareRec),
        guardedFrom 0 (isFirmwareSignedTrace s identifier fw) = true) := by
  refine ⟨rfl, fun e resp => ⟨rfl, ?_, rfl⟩, fun s identifier fw => ?_⟩
  · simp only [scrapeDataTrace, List.tail_cons]
    split
    · rfl
    · exact guardedFrom_firmwaresTrace e _
  · rcases hdl : deviceLookup s identifier with _ | bc
    · simp [isFirmwareSignedTrace, hdl, guardedFrom]
    · rcases hil : identityLookup s bc fw.buildid with _ | row
      · simp [isFirmwareSignedTrace, hdl, hil, guardedFrom]
      · simp [isFirmwareSignedTrace, hdl, hil, guardedFrom]

/-! ### C8: the refresh loop -/

/-- A pass schedule whose first pass raises and whose later passes would
succeed. -/
def c8FailFirst : Nat → Option Err :=
  fun i => if i == 0 then some Err.valueError else none

/-- Counterexample to C8 as stated: when pass 0 raises, the loop terminates
immediately — even with fuel for three iterations, no wait elapses and pass
1 never runs, so a failed pass does stop the loop. -/
theorem refresh_loop_stops_on_error :
    refreshLoop c8FailFirst 3 0 = [LoopEvent.pass 0]
      ∧ LoopEvent.pass 1 ∉ refreshLoop c8FailFirst 3 0
      ∧ LoopEvent.sleep 60 ∉ refreshLoop c8FailFirst 3 0 := by
  decide

/-- C8 as amended: each iteration runs a harvest pass and, when the pass
completes, waits the fixed 60 seconds and repeats; a pass that raises
propagates out of the loop and terminates it — no wait and no further
iteration follows, and the failed pass is not retried. -/
theorem refresh_loop_amended (runPass : Nat → Option Err) (fuel i : Nat) :
    (runPass i = none →
        refreshLoop runPass (fuel + 1) i
          = LoopEvent.pass i :: LoopEvent.sleep 60
              :: refreshLoop runPass fuel (i + 1))
    ∧ (∀ er, runPass i = some er →
        refreshLoop runPass (fuel + 1) i = [LoopEvent.pass i]) := by
  constructor
  · intro h
    simp [refreshLoop, h]
  · intro er h
    simp [refreshLoop, h]

/-- Witness for C8 (amended): a succeeding pass is followed by the 60-second
wait; a raising pass ends the trace at once. -/
theorem refresh_loop_amended_witness :
    refreshLoop (fun _ => none) 1 0 = [LoopEvent.pass 0, LoopEvent.sleep 60]
      ∧ refreshLoop (fun _ => some Err.valueError) 1 0 = [LoopEvent.pass 0] :=
  ⟨((refresh_loop_amended (fun _ => none) 0 0).1 rfl).trans rfl,
   (refresh_loop_amended (fun _ => some Err.valueError) 0 0).2 Err.valueError rfl⟩

end Scraper
